import Mathlib

/-!
# Verification of the CPU Babel Generator core

A shallow embedding of `src/cpu_babel_generator.py`: the seed-to-design-point
sampler (`seed_to_params`), the Verilog module composer
(`generate_*_verilog`, `generate_top_level_verilog`) and the lexicon-guided
similarity search (`similarity_search`), together with theorems settling the
frozen claims about them.

The Python program draws its pseudo-randomness from CPython's `random`
module (a Mersenne Twister, MT19937) seeded with
`int(hashlib.md5(seed.encode()).hexdigest(), 16)`.  Both libraries are
modelled here concretely and executably:

* `md5digest` follows RFC 1321 (the algorithm behind `hashlib.md5`);
* `MTState`, `initByArray`, `genrand32` follow `_randommodule.c`
  (`init_genrand`, `init_by_array`, `genrand_uint32`);
* `getrandbits`, `randbelow`, `pychoice`, `pyrandint`, `pysample` follow
  `random.py` (`getrandbits` for width ≤ 32, `_randbelow_with_getrandbits`,
  `choice`, `randint`/`randrange`, and the pool branch of `sample`, the one
  taken whenever the population has at most 21 elements).

The rejection loop of `_randbelow_with_getrandbits` is embedded with an
explicit fuel (it terminates only almost surely); the fallback result `0`
is below the bound, so every range/membership fact proved here holds for
any fuel.  Machine integers are `Nat` with explicit `% 4294967296`
reductions exactly where the C code works in `uint32_t`.
-/

set_option linter.unusedVariables false
set_option maxRecDepth 100000

/-! ## MD5 (RFC 1321), the algorithm behind `hashlib.md5` -/

/-- The 64 MD5 round constants `K[i] = floor(2^32 * |sin(i+1)|)`. -/
def md5K : List Nat :=
  [0xd76aa478, 0xe8c7b756, 0x242070db, 0xc1bdceee,
   0xf57c0faf, 0x4787c62a, 0xa8304613, 0xfd469501,
   0x698098d8, 0x8b44f7af, 0xffff5bb1, 0x895cd7be,
   0x6b901122, 0xfd987193, 0xa679438e, 0x49b40821,
   0xf61e2562, 0xc040b340, 0x265e5a51, 0xe9b6c7aa,
   0xd62f105d, 0x02441453, 0xd8a1e681, 0xe7d3fbc8,
   0x21e1cde6, 0xc33707d6, 0xf4d50d87, 0x455a14ed,
   0xa9e3e905, 0xfcefa3f8, 0x676f02d9, 0x8d2a4c8a,
   0xfffa3942, 0x8771f681, 0x6d9d6122, 0xfde5380c,
   0xa4beea44, 0x4bdecfa9, 0xf6bb4b60, 0xbebfbc70,
   0x289b7ec6, 0xeaa127fa, 0xd4ef3085, 0x04881d05,
   0xd9d4d039, 0xe6db99e5, 0x1fa27cf8, 0xc4ac5665,
   0xf4292244, 0x432aff97, 0xab9423a7, 0xfc93a039,
   0x655b59c3, 0x8f0ccc92, 0xffeff47d, 0x85845dd1,
   0x6fa87e4f, 0xfe2ce6e0, 0xa3014314, 0x4e0811a1,
   0xf7537e82, 0xbd3af235, 0x2ad7d2bb, 0xeb86d391]

/-- The 64 MD5 per-round left-rotation amounts. -/
def md5S : List Nat :=
  [7, 12, 17, 22, 7, 12, 17, 22, 7, 12, 17, 22, 7, 12, 17, 22,
   5, 9, 14, 20, 5, 9, 14, 20, 5, 9, 14, 20, 5, 9, 14, 20,
   4, 11, 16, 23, 4, 11, 16, 23, 4, 11, 16, 23, 4, 11, 16, 23,
   6, 10, 15, 21, 6, 10, 15, 21, 6, 10, 15, 21, 6, 10, 15, 21]

/-- 32-bit left rotation (inputs below `2^32`). -/
def rotl32 (x s : Nat) : Nat :=
  ((x <<< s) ||| (x >>> (32 - s))) % 4294967296

/-- Bitwise complement within 32 bits, for `x < 2^32`. -/
def not32 (x : Nat) : Nat := 4294967295 - x

/-- One MD5 round: state `(a, b, c, d)`, message words `m`, round index `i`. -/
def md5step (m : List Nat) (st : Nat × Nat × Nat × Nat) (i : Nat) :
    Nat × Nat × Nat × Nat :=
  let a := st.1
  let b := st.2.1
  let c := st.2.2.1
  let d := st.2.2.2
  let fg : Nat × Nat :=
    if i < 16 then ((b &&& c) ||| (not32 b &&& d), i)
    else if i < 32 then ((d &&& b) ||| (not32 d &&& c), (5 * i + 1) % 16)
    else if i < 48 then (b ^^^ c ^^^ d, (3 * i + 5) % 16)
    else (c ^^^ (b ||| not32 d), (7 * i) % 16)
  let tmp := (a + fg.1 + md5K.getD i 0 + m.getD fg.2 0) % 4294967296
  (d, (b + rotl32 tmp (md5S.getD i 0)) % 4294967296, b, c)

/-- Process one 16-word block against the running state. -/
def md5block (h : Nat × Nat × Nat × Nat) (m : List Nat) :
    Nat × Nat × Nat × Nat :=
  let st := (List.range 64).foldl (md5step m) h
  ((h.1 + st.1) % 4294967296, (h.2.1 + st.2.1) % 4294967296,
   (h.2.2.1 + st.2.2.1) % 4294967296, (h.2.2.2 + st.2.2.2) % 4294967296)

/-- Group a byte list into 32-bit little-endian words. -/
def leWords : List Nat → List Nat
  | b0 :: b1 :: b2 :: b3 :: rest =>
      (b0 + 256 * b1 + 65536 * b2 + 16777216 * b3) :: leWords rest
  | _ => []

/-- `count` little-endian bytes of `n` (truncating). -/
def leBytes (count n : Nat) : List Nat :=
  match count with
  | 0 => []
  | c + 1 => n % 256 :: leBytes c (n / 256)

/-- MD5 padding: `0x80`, zeros to 56 mod 64, then the 64-bit bit length. -/
def md5pad (msg : List Nat) : List Nat :=
  msg ++ 128 :: (List.replicate ((119 - msg.length % 64) % 64) 0
    ++ leBytes 8 (msg.length * 8))

/-- Split into 64-byte chunks; the fuel is an upper bound on the number of
chunks, making the recursion structural (hence kernel-reducible). -/
def chunksAux : Nat → List Nat → List (List Nat)
  | _, [] => []
  | 0, _ => []
  | fuel + 1, l => l.take 64 :: chunksAux fuel (l.drop 64)

/-- MD5 digest of a byte list: 16 bytes. -/
def md5digest (msg : List Nat) : List Nat :=
  let padded := md5pad msg
  let blocks := chunksAux padded.length padded
  let h := blocks.foldl (fun h blk => md5block h (leWords blk))
    (1732584193, 4023233417, 2562383102, 271733878)
  leBytes 4 h.1 ++ leBytes 4 h.2.1 ++ leBytes 4 h.2.2.1 ++ leBytes 4 h.2.2.2

/-- Lowercase hex digit: codepoint 48 carries the digits, 87 the
letters. -/
def hexChar (n : Nat) : Char :=
  if n < 10 then Char.ofNat (48 + n) else Char.ofNat (87 + n)

/-- Two-digit lowercase hex rendering of a byte. -/
def byteHex (b : Nat) : String :=
  String.mk [hexChar (b / 16), hexChar (b % 16)]

/-- `hashlib.md5(msg).hexdigest()`. -/
def md5hex (msg : List Nat) : String :=
  String.join ((md5digest msg).map byteHex)

/-- UTF-8 encoding of one code point. -/
def utf8Encode (c : Nat) : List Nat :=
  if c < 128 then [c]
  else if c < 2048 then [192 + c / 64, 128 + c % 64]
  else if c < 65536 then [224 + c / 4096, 128 + c / 64 % 64, 128 + c % 64]
  else [240 + c / 262144, 128 + c / 4096 % 64, 128 + c / 64 % 64,
    128 + c % 64]

/-- `s.encode()`: the UTF-8 bytes of a string. -/
def utf8Bytes (s : String) : List Nat :=
  (s.data.map (fun c => utf8Encode c.toNat)).flatten

/-- `int(hashlib.md5(msg).hexdigest(), 16)`: the digest bytes read as one
big-endian integer. -/
def md5Int (msg : List Nat) : Nat :=
  (md5digest msg).foldl (fun a b => a * 256 + b) 0

/-! ## MT19937, modelled from CPython `_randommodule.c`

State: the 624-word vector `mt` plus the output index.  After seeding the
index is 624, so the first extraction regenerates the whole block, exactly
as in the C code. -/

/-- The Mersenne Twister generator state. -/
structure MTState where
  mt : List Nat
  index : Nat
deriving Repr

/-- `init_genrand`'s fill loop: `mt[i] = (1812433253 * (mt[i-1] ^
(mt[i-1] >> 30)) + i) & 0xffffffff`, emitting `count` further words. -/
def igLoop (prev i count : Nat) : List Nat :=
  match count with
  | 0 => []
  | c + 1 =>
      let cur := (1812433253 * (prev ^^^ (prev >>> 30)) + i) % 4294967296
      cur :: igLoop cur (i + 1) c

/-- `init_genrand(s)`. -/
def initGenrand (s : Nat) : List Nat :=
  let m0 := s % 4294967296
  m0 :: igLoop m0 1 623

/-- First mixing loop of `init_by_array` (multiplier 1664525), running
`count` steps with word index `i` and key index `j`; returns the state and
the word index the second loop continues from. -/
def ibaLoop1 (key : List Nat) (klen : Nat) :
    Nat → Nat → Nat → List Nat → List Nat × Nat
  | 0, i, _, mt => (mt, i)
  | c + 1, i, j, mt =>
      let prev := mt.getD (i - 1) 0
      let v := ((mt.getD i 0 ^^^
          (((prev ^^^ (prev >>> 30)) * 1664525) % 4294967296))
        + key.getD j 0 + j) % 4294967296
      let mt1 := mt.set i v
      let i1 := i + 1
      let j1 := j + 1
      let mt2 := if i1 ≥ 624 then mt1.set 0 (mt1.getD 623 0) else mt1
      let i2 := if i1 ≥ 624 then 1 else i1
      let j2 := if j1 ≥ klen then 0 else j1
      ibaLoop1 key klen c i2 j2 mt2

/-- Second mixing loop of `init_by_array` (multiplier 1566083941; the C
subtraction of `i` wraps in `uint32_t`). -/
def ibaLoop2 : Nat → Nat → List Nat → List Nat
  | 0, _, mt => mt
  | c + 1, i, mt =>
      let prev := mt.getD (i - 1) 0
      let v := ((mt.getD i 0 ^^^
          (((prev ^^^ (prev >>> 30)) * 1566083941) % 4294967296))
        + (4294967296 - i)) % 4294967296
      let mt1 := mt.set i v
      let i1 := i + 1
      let mt2 := if i1 ≥ 624 then mt1.set 0 (mt1.getD 623 0) else mt1
      let i2 := if i1 ≥ 624 then 1 else i1
      ibaLoop2 c i2 mt2

/-- `init_by_array(key)`: seed state with index 624 (block exhausted). -/
def initByArray (key : List Nat) : MTState :=
  let mt0 := initGenrand 19650218
  let k := max 624 key.length
  let st1 := ibaLoop1 key key.length k 1 0 mt0
  let mt2 := ibaLoop2 623 st1.2 st1.1
  ⟨mt2.set 0 2147483648, 624⟩

/-- One in-place step of the block regeneration: positions `i+397` read the
already-updated words for `i ≥ 227`, as in the C loop. -/
def twistStep (mt : List Nat) (i : Nat) : List Nat :=
  let y := (mt.getD i 0 &&& 2147483648) ||| (mt.getD ((i + 1) % 624) 0 &&& 2147483647)
  let v := mt.getD ((i + 397) % 624) 0 ^^^ (y >>> 1) ^^^
    (if y % 2 = 1 then 2567483615 else 0)
  mt.set i v

/-- Regenerate the 624-word block. -/
def twist (mt : List Nat) : List Nat :=
  (List.range 624).foldl twistStep mt

/-- The MT19937 output tempering. -/
def temper (y0 : Nat) : Nat :=
  let y1 := y0 ^^^ (y0 >>> 11)
  let y2 := y1 ^^^ ((y1 <<< 7) &&& 2636928640)
  let y3 := y2 ^^^ ((y2 <<< 15) &&& 4022730752)
  y3 ^^^ (y3 >>> 18)

/-- `genrand_uint32`. -/
def genrand32 (g : MTState) : Nat × MTState :=
  let g1 := if g.index ≥ 624 then MTState.mk (twist g.mt) 0 else g
  (temper (g1.mt.getD g1.index 0), ⟨g1.mt, g1.index + 1⟩)

/-- Little-endian 32-bit chunks of `n` (lowest word first); the fuel is an
upper bound on the word count, making the recursion structural. -/
def leChunksAux : Nat → Nat → List Nat
  | 0, _ => []
  | _, 0 => []
  | fuel + 1, n => n % 4294967296 :: leChunksAux fuel (n / 4294967296)

/-- The key array `random_seed` builds from the (nonnegative) integer seed:
its base-`2^32` digits, lowest first — `((bits-1)/32)+1` words.  A zero
seed contributes the single word 0. -/
def seedKey (n : Nat) : List Nat :=
  if n = 0 then [0] else leChunksAux n n

/-- `random.seed(n)` for a nonnegative int `n`. -/
def mtSeed (n : Nat) : MTState :=
  initByArray (seedKey n)

/-! ## The `random.py` draw API used by the program -/

/-- `getrandbits(k)` for `0 < k ≤ 32`: the top `k` bits of one output. -/
def getrandbits (k : Nat) (g : MTState) : Nat × MTState :=
  let rg := genrand32 g
  (rg.1 >>> (32 - k), rg.2)

/-- `n.bit_length()`; fuel-based structural recursion on the first
argument (a valid bound since `bit_length n ≤ n`). -/
def bitLenAux : Nat → Nat → Nat
  | 0, _ => 0
  | fuel + 1, n => if n = 0 then 0 else bitLenAux fuel (n / 2) + 1

/-- `n.bit_length()`. -/
def bit_length (n : Nat) : Nat := bitLenAux n n

/-- The rejection loop of `_randbelow_with_getrandbits`: draw `k`-bit
values until one is `< n`.  The loop terminates only almost surely, so it
is embedded with fuel; the fallback 0 keeps the result below `n`. -/
def randbelowLoop (n k : Nat) : Nat → MTState → Nat × MTState
  | 0, g => (0, g)
  | fuel + 1, g =>
      if (getrandbits k g).1 < n then getrandbits k g
      else randbelowLoop n k fuel (getrandbits k g).2

/-- `Random._randbelow(n)` (via `getrandbits`). -/
def randbelow (n : Nat) (g : MTState) : Nat × MTState :=
  randbelowLoop n (bit_length n) 64 g

/-- `random.choice(seq)`: `seq[self._randbelow(len(seq))]`. -/
def pychoice {α : Type} [Inhabited α] (seq : List α) (g : MTState) :
    α × MTState :=
  let ig := randbelow seq.length g
  (seq.getD ig.1 default, ig.2)

/-- `random.randint(a, b)` = `randrange(a, b+1)` =
`a + _randbelow(b + 1 - a)`. -/
def pyrandint (a b : Nat) (g : MTState) : Nat × MTState :=
  let rg := randbelow (b + 1 - a) g
  (a + rg.1, rg.2)

/-- The selection loop of `random.sample`'s pool branch (taken whenever the
population has at most 21 elements): at each step draw
`j = _randbelow(m)` over the active prefix of length `m`, emit `pool[j]`,
and move `pool[m-1]` into the vacancy. -/
def sampleLoop (pool : List Nat) (m : Nat) (k : Nat) (g : MTState) :
    List Nat × MTState :=
  match k with
  | 0 => ([], g)
  | k' + 1 =>
      let jg := randbelow m g
      let x := pool.getD jg.1 0
      let pool1 := pool.set jg.1 (pool.getD (m - 1) 0)
      let rg := sampleLoop pool1 (m - 1) k' jg.2
      (x :: rg.1, rg.2)

/-- `random.sample(population, k)` for a small population (pool branch). -/
def pysample (population : List Nat) (k : Nat) (g : MTState) :
    List Nat × MTState :=
  sampleLoop population population.length k g

/-! ## The Design Space Catalog (`class MicroX86Params`) -/

/-- The value of one Python dictionary entry used by this program. -/
inductive PyVal where
  | int (n : Nat)
  | natlist (l : List Nat)
  | str (s : String)
  | strlist (l : List String)
deriving DecidableEq, Repr

namespace MicroX86Params

def NUM_REGS_OPTIONS : List Nat := [4, 6, 8]

def REG_NAMES : List String :=
  ["RAX", "RBX", "RCX", "RDX", "R8", "R9", "R10", "R11"]

def INSTRUCTIONS : List String :=
  ["ADD", "SUB", "AND", "OR", "XOR", "INC", "DEC",
   "MOV", "JMP", "CMP", "JE", "JNE", "PUSH", "POP"]

def ADDRESSING_MODES : List Nat := [1, 2, 3]

def DECODER_TYPES : List String := ["hardwired", "microcoded"]

def PIPELINE_DEPTHS : List Nat := [2, 3, 4]

def EXEC_UNITS : List String := ["single_alu", "separate_agu_alu"]

def MEMORY_TYPES : List String := ["simple", "cached"]

/-- The search lexicon: word → partial constraint dict (key/value pairs in
the source's literal order). -/
def LEXICON : List (String × List (String × PyVal)) :=
  [("cisc", [("decoder", .str "microcoded")]),
   ("risc_like", [("decoder", .str "hardwired")]),
   ("compact", [("num_regs", .int 4), ("addressing_modes", .natlist [1])]),
   ("powerful", [("num_regs", .int 8),
     ("addressing_modes", .natlist [1, 2, 3])]),
   ("fast_memory", [("memory", .str "cached")]),
   ("simple_memory", [("memory", .str "simple")]),
   ("deep_pipeline", [("pipeline_depth", .int 4)]),
   ("shallow_pipeline", [("pipeline_depth", .int 2)])]

end MicroX86Params

/-! ## The parameter dictionary and the Seed Sampler (`seed_to_params`) -/

/-- The `params` dictionary built by `seed_to_params`, with one field per
key (the keys are in fixed insertion order, see `pyStrParams`). -/
structure Params where
  num_regs : Nat
  addressing_modes : List Nat
  decoder_type : String
  pipeline_depth : Nat
  exec_units : String
  memory_type : String
  instructions : List String
deriving DecidableEq, Repr

/-- The six draws of `seed_to_params`, in the order the dict literal
evaluates them (the `k=random.randint(...)` argument is drawn before
`random.sample` runs). -/
def draw_params (g : MTState) : Params × MTState :=
  let r1 := pychoice MicroX86Params.NUM_REGS_OPTIONS g
  let r2 := pyrandint 1 MicroX86Params.ADDRESSING_MODES.length r1.2
  let r3 := pysample MicroX86Params.ADDRESSING_MODES r2.1 r2.2
  let r4 := pychoice MicroX86Params.DECODER_TYPES r3.2
  let r5 := pychoice MicroX86Params.PIPELINE_DEPTHS r4.2
  let r6 := pychoice MicroX86Params.EXEC_UNITS r5.2
  let r7 := pychoice MicroX86Params.MEMORY_TYPES r6.2
  (⟨r1.1, r3.1, r4.1, r5.1, r6.1, r7.1, MicroX86Params.INSTRUCTIONS⟩, r7.2)

/-- `seed_to_params` acting on the module-level generator state `g0`:
`random.seed(int(md5(seed.encode()).hexdigest(), 16))` replaces the state
outright (discarding `g0`), then the six draws run. -/
def seed_to_paramsG (seed : String) (g0 : MTState) : Params × MTState :=
  draw_params (mtSeed (md5Int (utf8Bytes seed)))

/-- `seed_to_params(seed)`: the design point derived from a seed string. -/
def seed_to_params (seed : String) : Params :=
  (draw_params (mtSeed (md5Int (utf8Bytes seed)))).1

/-! ## Python renderings of the parameter dictionary -/

/-- `str(v)` for a dictionary value; a bare string renders without
quotes. -/
def pyStr : PyVal → String
  | .int n => toString n
  | .natlist l => "[" ++ String.intercalate ", " (l.map toString) ++ "]"
  | .str s => s
  | .strlist l =>
      "[" ++ String.intercalate ", "
        (l.map (fun s => "\x27" ++ s ++ "\x27")) ++ "]"

/-- `repr(v)`, as used inside `str(params)`: strings are quoted. -/
def pyRepr : PyVal → String
  | .str s => "\x27" ++ s ++ "\x27"
  | v => pyStr v

/-- `str(params)`: the CPython `repr` of the dict built by
`seed_to_params`, keys in insertion order. -/
def pyStrParams (p : Params) : String :=
  "\x7b\x27num_regs\x27: " ++ toString p.num_regs ++
  ", \x27addressing_modes\x27: " ++ pyRepr (.natlist p.addressing_modes) ++
  ", \x27decoder_type\x27: \x27" ++ p.decoder_type ++ "\x27" ++
  ", \x27pipeline_depth\x27: " ++ toString p.pipeline_depth ++
  ", \x27exec_units\x27: \x27" ++ p.exec_units ++ "\x27" ++
  ", \x27memory_type\x27: \x27" ++ p.memory_type ++ "\x27" ++
  ", \x27instructions\x27: " ++ pyRepr (.strlist p.instructions) ++ "\x7d"

/-! ## The Module Composer (`generate_*_verilog`)

Each template is transcribed verbatim from the source; `\x7b`/`\x7d` are
literal braces and `\x27` literal apostrophes in the generated text. -/

/-- `generate_register_file_verilog(params)`. -/
def generate_register_file_verilog (p : Params) : String :=
  let reg_width : Nat := 64
  "\nmodule reg_file #(\n    parameter NUM_REGS = " ++ toString p.num_regs ++
  ",\n    parameter REG_WIDTH = " ++ toString reg_width ++
  "\n)(\n    input clk,\n    input we,  // write enable\n" ++
  "    input [$\x7bNUM_REGS-1\x7d:0] waddr,  // write address\n" ++
  "    input [$\x7bNUM_REGS-1\x7d:0] raddr1, raddr2,\n" ++
  "    input [REG_WIDTH-1:0] wdata,\n" ++
  "    output [REG_WIDTH-1:0] rdata1, rdata2\n);\n" ++
  "    reg [REG_WIDTH-1:0] regs [0:NUM_REGS-1];\n    \n" ++
  "    integer i;\n    initial begin\n" ++
  "        for (i = 0; i < NUM_REGS; i = i + 1) begin\n" ++
  "            regs[i] = 64\x27h0;\n        end\n    end\n    \n" ++
  "    always @(posedge clk) begin\n        if (we) begin\n" ++
  "            regs[waddr] <= wdata;\n        end\n    end\n    \n" ++
  "    assign rdata1 = regs[raddr1];\n" ++
  "    assign rdata2 = regs[raddr2];\nendmodule\n"

/-- The hardwired decoder template. -/
def decoder_hardwired_text : String :=
  "\nmodule decoder_hardwired (\n    input [31:0] instr,\n" ++
  "    output reg [3:0] opcode,  // Simplified 4-bit opcode\n" ++
  "    output reg [2:0] dest_reg,\n    output reg [2:0] src1_reg,\n" ++
  "    output reg [3:0] mode,  // Addressing mode\n" ++
  "    output reg [13:0] imm  // Immediate\n);\n" ++
  "    // Hardwired decoding logic\n    always @(*) begin\n" ++
  "        opcode = instr[31:28];\n        dest_reg = instr[27:25];\n" ++
  "        src1_reg = instr[24:22];\n        mode = instr[21:18];\n" ++
  "        imm = instr[17:4];\n    end\nendmodule\n"

/-- The microcoded decoder template. -/
def decoder_microcoded_text : String :=
  "\nmodule decoder_microcoded (\n    input [31:0] instr,\n" ++
  "    input clk,\n    output reg [15:0] micro_addr,  // Microcode address\n" ++
  "    output reg micro_we\n);\n" ++
  "    // Simple microcode ROM (generated separately)\n" ++
  "    reg [31:0] micro_rom [0:255];  // 256 entries, 32-bit microinstructions\n    \n" ++
  "    initial begin\n" ++
  "        // Microcode initialization would be populated by generator\n" ++
  "        // For now, placeholder\n" ++
  "        micro_rom[0] = 32\x27hDEADBEEF;  // Example\n    end\n    \n" ++
  "    always @(*) begin\n        // Decode to micro-op address\n" ++
  "        micro_addr = instr[15:0];  // Simplified\n" ++
  "        micro_we = 1\x27b0;\n    end\nendmodule\n"

/-- `generate_decoder_verilog(params)`: any `decoder_type` other than
`"hardwired"` falls into the `else` (microcoded) branch. -/
def generate_decoder_verilog (p : Params) : String :=
  if p.decoder_type = "hardwired" then decoder_hardwired_text
  else decoder_microcoded_text

/-- The unified-ALU template. -/
def alu_single_text : String :=
  "\nmodule alu (\n    input [3:0] op,\n    input [63:0] a, b,\n" ++
  "    output reg [63:0] result,\n    output reg zero_flag\n);\n" ++
  "    always @(*) begin\n        case (op)\n" ++
  "            4\x27h1: result = a + b;  // ADD\n" ++
  "            4\x27h2: result = a - b;  // SUB\n" ++
  "            4\x27h3: result = a & b;  // AND\n" ++
  "            4\x27h4: result = a | b;  // OR\n" ++
  "            4\x27h5: result = a ^ b;  // XOR\n" ++
  "            default: result = a;\n        endcase\n" ++
  "        zero_flag = (result == 64\x27h0);\n    end\nendmodule\n"

/-- The split AGU/ALU template. -/
def alu_separate_text : String :=
  "\nmodule agu_alu_separate (\n    input [3:0] op,\n" ++
  "    input [63:0] a, b,\n    input is_memory_op,\n" ++
  "    output reg [63:0] result,\n    output reg [63:0] addr_calc,\n" ++
  "    output reg zero_flag\n);\n    // ALU part\n" ++
  "    always @(*) begin\n        if (is_memory_op) begin\n" ++
  "            addr_calc = a + b;  // Address generation\n" ++
  "            result = 64\x27h0;\n        end else begin\n" ++
  "            case (op)\n                4\x27h1: result = a + b;\n" ++
  "                // ... other ops\n                default: result = a;\n" ++
  "            endcase\n            addr_calc = 64\x27h0;\n        end\n" ++
  "        zero_flag = (result == 64\x27h0);\n    end\nendmodule\n"

/-- `generate_alu_verilog(params)`: any `exec_units` other than
`"single_alu"` falls into the `else` (separate AGU/ALU) branch. -/
def generate_alu_verilog (p : Params) : String :=
  if p.exec_units = "single_alu" then alu_single_text else alu_separate_text

/-- The flat memory template. -/
def memory_simple_text : String :=
  "\nmodule memory_simple (\n    input clk,\n    input [63:0] addr,\n" ++
  "    input [63:0] wdata,\n    input we,\n" ++
  "    output reg [63:0] rdata\n);\n" ++
  "    reg [63:0] mem [0:1023];  // Small memory 1KB\n    \n" ++
  "    always @(posedge clk) begin\n        if (we) begin\n" ++
  "            mem[addr[9:0]] <= wdata;  // Simplified addressing\n" ++
  "        end\n        rdata <= mem[addr[9:0]];\n    end\nendmodule\n"

/-- The cached memory template. -/
def memory_cached_text : String :=
  "\nmodule memory_cached (\n    input clk,\n    input [63:0] addr,\n" ++
  "    input [63:0] wdata,\n    input we,\n" ++
  "    output reg [63:0] rdata,\n    output reg hit\n);\n" ++
  "    // Simple direct-mapped I-cache, 16 entries, 4 words each\n" ++
  "    reg [63:0] cache_data [0:15][0:3];\n" ++
  "    reg [63:0] cache_tags [0:15];\n" ++
  "    reg [3:0] valid [0:15];\n    \n" ++
  "    // Simplified cache logic (placeholder)\n" ++
  "    always @(*) begin\n        // Cache hit/miss logic here\n" ++
  "        hit = 1\x27b1;  // Assume hit for simplicity\n" ++
  "        rdata = cache_data[addr[7:4]][addr[3:2]];\n    end\nendmodule\n"

/-- `generate_memory_interface_verilog(params)`: any `memory_type` other
than `"simple"` falls into the `else` (cached) branch. -/
def generate_memory_interface_verilog (p : Params) : String :=
  if p.memory_type = "simple" then memory_simple_text else memory_cached_text

/-- The list `verilog_parts` the composer builds (and then, because the
source escapes its braces as `{{chr(10).join(verilog_parts)}}`, never
splices into the artifact text). -/
def verilog_parts (p : Params) : List String :=
  [generate_register_file_verilog p, generate_decoder_verilog p,
   generate_alu_verilog p, generate_memory_interface_verilog p]

/-- Top-level template up to the `NUM_REGS = ` slot.  The braces on the
`Parameters:` and `chr(10).join` lines are escaped (doubled) in the
source f-string, so these lines appear literally in the artifact and the
four submodule texts are never inserted. -/
def topT1 : String :=
  "\n// Top-level micro-x86-64 core\n// Parameters: \x7bparams\x7d\n\n" ++
  "\x7bchr(10).join(verilog_parts)\x7d\n\nmodule micro_x86_core #(\n" ++
  "    parameter NUM_REGS = "

def topT2 : String := ",\n    parameter PIPELINE_DEPTH = "

def topT3 : String :=
  "\n)(\n    input clk,\n    input reset,\n" ++
  "    input [31:0] instr,  // From fetch stage\n" ++
  "    output [63:0] pc_out\n);\n\n" ++
  "    wire [63:0] rdata1, rdata2;\n    wire [3:0] opcode;\n" ++
  "    wire [2:0] dest_reg, src1_reg;\n    wire [3:0] mode;\n" ++
  "    wire [13:0] imm;\n    wire [63:0] alu_result;\n" ++
  "    wire zero_flag;\n    \n" ++
  "    // Instantiate components based on params\n" ++
  "    reg_file #(.NUM_REGS(NUM_REGS)) rf (\n        .clk(clk),\n" ++
  "        .we(/* from control */),\n        .waddr(dest_reg),\n" ++
  "        .raddr1(src1_reg),\n        .raddr2(/* src2 */),\n" ++
  "        .wdata(alu_result),\n        .rdata1(rdata1),\n" ++
  "        .rdata2(rdata2)\n    );\n    \n    "

def topT4 : String :=
  "\n        .instr(instr),\n        .opcode(opcode),\n" ++
  "        .dest_reg(dest_reg),\n        .src1_reg(src1_reg),\n" ++
  "        .mode(mode),\n        .imm(imm)\n    );\n    \n    "

def topT5 : String :=
  "\n        .op(opcode[3:0]),\n        .a(rdata1),\n" ++
  "        .b(/* src2 or imm */),\n        .result(alu_result),\n" ++
  "        .zero_flag(zero_flag)\n    );\n    \n    "

def topT6 : String :=
  "\n        .clk(clk),\n        .addr(/* effective addr */),\n" ++
  "        .wdata(rdata1),\n        .we(/* control */),\n" ++
  "        .rdata(/* to reg */)\n    );\n    \n" ++
  "    // Pipeline registers for \x7bpipeline_depth\x7d stages (simplified)\n" ++
  "    reg [63:0] pipeline_regs ["

def topT7 : String :=
  "][/* width */];\n    \n    // PC logic\n    reg [63:0] pc;\n" ++
  "    always @(posedge clk) begin\n        if (reset) pc <= 64\x27h0;\n" ++
  "        else pc <= pc + 32\x27d4;  // Assume 32-bit instr\n    end\n" ++
  "    assign pc_out = pc;\n    \n" ++
  "    // Register names for simulation: "

def topT8 : String := "\n    \nendmodule\n"

/-- The rendered `top_template`: the text `generate_top_level_verilog`
writes to the artifact file.  Its interpolation slots are, in order:
`num_regs`, `pipeline_depth`, `params['decoder_type']` (decoder
instantiation), `params['memory_type']` (memory instantiation),
`pipeline_depth` again, and `', '.join(reg_names)` where
`reg_names = REG_NAMES[:num_regs]`. -/
def top_content (p : Params) : String :=
  topT1 ++ toString p.num_regs ++ topT2 ++ toString p.pipeline_depth ++
  topT3 ++ ("decoder_" ++ p.decoder_type ++ " dec (") ++ topT4 ++
  "alu alu_inst (" ++ topT5 ++
  ("memory_" ++ p.memory_type ++ " mem_inst (") ++ topT6 ++
  toString p.pipeline_depth ++ topT7 ++
  String.intercalate ", " (MicroX86Params.REG_NAMES.take p.num_regs) ++
  topT8

/-- The artifact identifier:
`hashlib.md5(str(params).encode()).hexdigest()[:8]`. -/
def artifact_id (p : Params) : String :=
  (md5hex (utf8Bytes (pyStrParams p))).take 8

/-- `generate_top_level_verilog(params, output_dir)`: returns the filename
(`os.path.join` modelled as `dir ++ "/" ++ name`, exact for the default
`'.'` and any directory not ending in a separator) together with the text
written to that file; the source's default for `output_dir` is `"."`. -/
def generate_top_level_verilog (p : Params) (output_dir : String) :
    String × String :=
  (output_dir ++ "/" ++ ("micro_x86_core_" ++ artifact_id p ++ ".v"),
   top_content p)

/-! ## The Similarity Ranker (`similarity_search`)

Python's built-in `hash` of a string is SipHash keyed per process
(`PYTHONHASHSEED`), so every definition below is parametrised by the
process hash function `h : String → Int`; nothing proved about the claims
depends on which `h` the process uses.  The accumulated distance is a sum
of values `abs(... % 100 ...) < 100` over at most seven fields, so the
Python float arithmetic is exact and the distance is modelled as `Nat`. -/

/-- Python dict assignment `d[k] = v` on an insertion-ordered dict:
update in place if the key exists, else append. -/
def dictSet (d : List (String × PyVal)) (k : String) (v : PyVal) :
    List (String × PyVal) :=
  match d with
  | [] => [(k, v)]
  | (k0, v0) :: rest =>
      if k0 = k then (k0, v) :: rest else (k0, v0) :: dictSet rest k v

/-- The `target_params` dict: for each query word found in the Lexicon,
assign its constraint pairs in order (later words override earlier ones
key by key); unknown words are skipped. -/
def target_of_words (query_words : List String) : List (String × PyVal) :=
  query_words.foldl
    (fun t w =>
      match List.lookup w MicroX86Params.LEXICON with
      | none => t
      | some kvs => kvs.foldl (fun t kv => dictSet t kv.1 kv.2) t)
    []

/-- `k in gen_params` / `gen_params[k]` for the dict built by
`seed_to_params`: its keys are exactly the seven field names. -/
def genLookup (p : Params) (k : String) : Option PyVal :=
  if k = "num_regs" then some (.int p.num_regs)
  else if k = "addressing_modes" then some (.natlist p.addressing_modes)
  else if k = "decoder_type" then some (.str p.decoder_type)
  else if k = "pipeline_depth" then some (.int p.pipeline_depth)
  else if k = "exec_units" then some (.str p.exec_units)
  else if k = "memory_type" then some (.str p.memory_type)
  else if k = "instructions" then some (.strlist p.instructions)
  else none

/-- The per-field cost the distance loop adds for one constrained field:
`abs(hash(str(gen_params[k])) % 100 - hash(str(target_params[k])) % 100)`
(`%` is Python's floor mod, i.e. `Int.emod`). -/
def per_field_cost (h : String → Int) (gv tv : PyVal) : Nat :=
  (h (pyStr gv) % 100 - h (pyStr tv) % 100).natAbs

/-- The distance of a candidate's params to the target constraint dict:
sum over the target's keys, where keys missing from the candidate's dict
(such as the Lexicon's `decoder` and `memory` keys) contribute nothing. -/
def params_distance (h : String → Int) (target : List (String × PyVal))
    (p : Params) : Nat :=
  (target.map (fun kv =>
    match genLookup p kv.1 with
    | some gv => per_field_cost h gv kv.2
    | none => 0)).sum

/-- Insert a `(seed, distance)` pair behind every element of no greater
distance: one step of the stable ascending sort. -/
def insertByDist (x : String × Nat) :
    List (String × Nat) → List (String × Nat)
  | [] => [x]
  | y :: ys => if y.2 ≤ x.2 then y :: insertByDist x ys else x :: y :: ys

/-- `results.sort(key=lambda x: x[1])`: Python's ascending sort is stable;
inserting each element in input order behind its equals realises exactly
that ordering. -/
def stableSortByDist (l : List (String × Nat)) : List (String × Nat) :=
  l.foldl (fun acc x => insertByDist x acc) []

/-- `similarity_search(seeds, query_words, max_results)`. -/
def similarity_search (h : String → Int) (seeds : List String)
    (query_words : List String) (max_results : Nat) :
    List (String × Nat) :=
  let target := target_of_words query_words
  let results := seeds.map (fun s =>
    (s, params_distance h target (seed_to_params s)))
  (stableSortByDist results).take max_results

/-- The call with the source's default `max_results=5`. -/
def similarity_search_default (h : String → Int) (seeds : List String)
    (query_words : List String) : List (String × Nat) :=
  similarity_search h seeds query_words 5

/-! ## Verification infrastructure -/

/-- `pat` occurs contiguously inside `s`. -/
def occursIn (pat s : String) : Prop := pat.data <:+: s.data

instance occursIn_decidable (pat s : String) : Decidable (occursIn pat s) :=
  inferInstanceAs (Decidable (pat.data <:+: s.data))

/-- A design point whose every field lies inside the Design Space
Catalog's enumerated options. -/
def valid_params (p : Params) : Prop :=
  p.num_regs ∈ MicroX86Params.NUM_REGS_OPTIONS ∧
  p.decoder_type ∈ MicroX86Params.DECODER_TYPES ∧
  p.pipeline_depth ∈ MicroX86Params.PIPELINE_DEPTHS ∧
  p.exec_units ∈ MicroX86Params.EXEC_UNITS ∧
  p.memory_type ∈ MicroX86Params.MEMORY_TYPES ∧
  p.addressing_modes ≠ [] ∧
  p.addressing_modes.Nodup ∧
  (∀ m ∈ p.addressing_modes, m ∈ MicroX86Params.ADDRESSING_MODES)

/-- A design point with every categorical field outside the catalog. -/
def bad_point : Params :=
  ⟨5, [7], "bogus", 9, "weird", "strange", []⟩

/-- The design point `(4, [1, 2], hardwired, 2, single_alu, simple)`. -/
def point_modes_12 : Params :=
  ⟨4, [1, 2], "hardwired", 2, "single_alu", "simple",
    MicroX86Params.INSTRUCTIONS⟩

/-- The same design point with the addressing modes listed as `[2, 1]`. -/
def point_modes_21 : Params :=
  ⟨4, [2, 1], "hardwired", 2, "single_alu", "simple",
    MicroX86Params.INSTRUCTIONS⟩

/-- The `results` list `similarity_search` builds before sorting: each
candidate seed in input order, paired with its distance to the target. -/
def rank_pairs (h : String → Int) (seeds query_words : List String) :
    List (String × Nat) :=
  seeds.map (fun s =>
    (s, params_distance h (target_of_words query_words) (seed_to_params s)))

/-- Sanity anchor: the RFC 1321 test vector for `"abc"`. -/
theorem md5hex_abc :
    md5hex (utf8Bytes "abc") = "900150983cd24fb0d6963f7d28e17f72" := by
  decide

/-- A string decomposed as `a ++ (b ++ c)` contains `b`. -/
theorem occursIn_of_eq (a b c s : String) (h : s = a ++ (b ++ c)) :
    occursIn b s :=
  ⟨a.data, c.data, by
    subst h
    simp [String.data_append, List.append_assoc]⟩

/-- The rejection loop returns a value below the bound for every fuel:
accepted draws satisfy it by the loop guard and the fuel-exhaustion
fallback 0 does as well. -/
theorem randbelowLoop_lt (n k : Nat) (hn : 0 < n) :
    ∀ (fuel : Nat) (g : MTState), (randbelowLoop n k fuel g).1 < n := by
  intro fuel
  induction fuel with
  | zero => intro g; simpa [randbelowLoop] using hn
  | succ f ih =>
      intro g
      simp only [randbelowLoop]
      split
      · assumption
      · exact ih _

/-- `_randbelow(n)` is below `n` whenever `0 < n`. -/
theorem randbelow_lt (n : Nat) (g : MTState) (hn : 0 < n) :
    (randbelow n g).1 < n :=
  randbelowLoop_lt n (bit_length n) hn 64 g

/-- `choice` returns an element of a nonempty sequence. -/
theorem pychoice_mem {α : Type} [Inhabited α] (seq : List α) (g : MTState)
    (hne : seq ≠ []) : (pychoice seq g).1 ∈ seq := by
  have hl : 0 < seq.length := List.length_pos.mpr hne
  have hi : (randbelow seq.length g).1 < seq.length := randbelow_lt _ g hl
  simp only [pychoice]
  rw [List.getD_eq_getElem seq default hi]
  exact List.getElem_mem hi

/-- `randint(a, b)` lies in `[a, b]` when `a ≤ b`. -/
theorem pyrandint_range (a b : Nat) (g : MTState) (hab : a ≤ b) :
    a ≤ (pyrandint a b g).1 ∧ (pyrandint a b g).1 ≤ b := by
  have h := randbelow_lt (b + 1 - a) g (by omega)
  simp only [pyrandint]
  omega

/-- Replacing one entry of a list then taking a prefix is taking the
prefix then replacing. -/
theorem take_set_comm : ∀ (l : List Nat) (m j v : Nat),
    (l.set j v).take m = (l.take m).set j v := by
  intro l
  induction l with
  | nil => intro m j v; simp
  | cons a l ih =>
      intro m j v
      cases m with
      | zero => simp
      | succ m =>
          cases j with
          | zero => simp [List.set]
          | succ j => simp [List.set, ih]

/-- Setting past the end of a list is the identity. -/
theorem set_of_le : ∀ (l : List Nat) (j v : Nat), l.length ≤ j →
    l.set j v = l := by
  intro l
  induction l with
  | nil => intro j v _; simp
  | cons a l ih =>
      intro j v h
      cases j with
      | zero => simp at h
      | succ j => simpa [List.set] using ih j v (by simpa using h)

/-- Extracting the entry at `j` and overwriting it with `v` permutes the
list with `v` appended. -/
theorem cons_set_perm : ∀ (u : List Nat) (j v : Nat), j < u.length →
    List.Perm (u.getD j 0 :: u.set j v) (u ++ [v]) := by
  intro u
  induction u with
  | nil => intro j v h; simp at h
  | cons a u ih =>
      intro j v h
      cases j with
      | zero =>
          simp only [List.getD_cons_zero, List.set_cons_zero, List.cons_append]
          exact (List.perm_append_singleton v u).symm.cons a
      | succ j =>
          simp only [List.getD_cons_succ, List.set_cons_succ, List.cons_append]
          exact (List.Perm.swap a (u.getD j 0) (u.set j v)).trans
            ((ih j v (by simpa using h)).cons a)

/-- One selection step: extracting index `j` of the active prefix and
moving the last active entry into the hole permutes the active prefix. -/
theorem select_step_perm (pool : List Nat) (m j : Nat) (hj : j < m)
    (hm : m ≤ pool.length) :
    List.Perm
      (pool.getD j 0 :: ((pool.set j (pool.getD (m - 1) 0)).take (m - 1)))
      (pool.take m) := by
  set v := pool.getD (m - 1) 0 with hv
  have hu : (pool.take (m - 1)).length = m - 1 := by
    rw [List.length_take]; omega
  have htm : pool.take m = pool.take (m - 1) ++ [v] := by
    have hm1 : m - 1 < pool.length := by omega
    have h1 : pool.take (m - 1 + 1) = pool.take (m - 1) ++ [pool[m - 1]] := by
      rw [List.take_succ, List.getElem?_eq_getElem hm1]
      rfl
    have h2 : v = pool[m - 1] := List.getD_eq_getElem pool 0 hm1
    rw [show pool.take m = pool.take (m - 1 + 1) from by
        rw [Nat.sub_add_cancel (by omega : 1 ≤ m)],
      h1, h2]
  rw [take_set_comm]
  by_cases hj1 : j < m - 1
  · have hg : pool.getD j 0 = (pool.take (m - 1)).getD j 0 := by
      rw [List.getD_eq_getElem pool 0 (by omega),
        List.getD_eq_getElem (pool.take (m - 1)) 0 (by omega)]
      exact (List.getElem_take pool).symm
    rw [hg, htm]
    exact cons_set_perm (pool.take (m - 1)) j v (by omega)
  · have hj2 : j = m - 1 := by omega
    rw [set_of_le _ _ _ (by omega), htm, hj2, hv]
    exact (List.perm_append_singleton v (pool.take (m - 1))).symm

/-- The selection loop always emits exactly `k` elements. -/
theorem sampleLoop_length : ∀ (k m : Nat) (pool : List Nat) (g : MTState),
    (sampleLoop pool m k g).1.length = k := by
  intro k
  induction k with
  | zero => intro m pool g; simp [sampleLoop]
  | succ k ih => intro m pool g; simp [sampleLoop, ih]

/-- The elements the selection loop emits, together with some leftover
list, permute the first `m` entries of the pool. -/
theorem sampleLoop_perm : ∀ (k m : Nat) (pool : List Nat) (g : MTState),
    k ≤ m → m ≤ pool.length →
    ∃ rest : List Nat,
      List.Perm ((sampleLoop pool m k g).1 ++ rest) (pool.take m) := by
  intro k
  induction k with
  | zero => intro m pool g _ _; exact ⟨pool.take m, by simp [sampleLoop]⟩
  | succ k ih =>
      intro m pool g hkm hm
      have hm0 : 0 < m := by omega
      have hj : (randbelow m g).1 < m := randbelow_lt m g hm0
      obtain ⟨rest, hrest⟩ := ih (m - 1)
        (pool.set (randbelow m g).1 (pool.getD (m - 1) 0)) (randbelow m g).2
        (by omega) (by rw [List.length_set]; omega)
      refine ⟨rest, ?_⟩
      have hstep : (sampleLoop pool m (k + 1) g).1
          = pool.getD (randbelow m g).1 0 ::
            (sampleLoop (pool.set (randbelow m g).1 (pool.getD (m - 1) 0))
              (m - 1) k (randbelow m g).2).1 := rfl
      rw [hstep, List.cons_append]
      exact ((hrest.cons _).trans (select_step_perm pool m _ hj hm))

/-- `random.sample([1,2,3], k)` with `1 ≤ k ≤ 3`: nonempty, duplicate-free
and drawn from the addressing-mode catalog, for every generator state. -/
theorem pysample_modes_props (k : Nat) (g : MTState) (h1 : 1 ≤ k)
    (h3 : k ≤ 3) :
    (pysample MicroX86Params.ADDRESSING_MODES k g).1 ≠ [] ∧
    (pysample MicroX86Params.ADDRESSING_MODES k g).1.Nodup ∧
    ∀ x ∈ (pysample MicroX86Params.ADDRESSING_MODES k g).1,
      x ∈ MicroX86Params.ADDRESSING_MODES := by
  obtain ⟨rest, hperm⟩ := sampleLoop_perm k 3 MicroX86Params.ADDRESSING_MODES
    g h3 (by rfl)
  have hpy : (pysample MicroX86Params.ADDRESSING_MODES k g).1
      = (sampleLoop MicroX86Params.ADDRESSING_MODES 3 k g).1 := rfl
  have htk : MicroX86Params.ADDRESSING_MODES.take 3
      = MicroX86Params.ADDRESSING_MODES := rfl
  rw [htk] at hperm
  refine ⟨?_, ?_, ?_⟩
  · intro hnil
    have hlen := sampleLoop_length k 3 MicroX86Params.ADDRESSING_MODES g
    rw [hpy, hnil] at *
    simp at hlen
    omega
  · have hnd : ((sampleLoop MicroX86Params.ADDRESSING_MODES 3 k g).1
        ++ rest).Nodup := hperm.nodup_iff.mpr (by decide)
    rw [hpy]
    exact (List.nodup_append.mp hnd).1
  · intro x hx
    rw [hpy] at hx
    exact hperm.mem_iff.mp (List.mem_append.mpr (Or.inl hx))

/-! ## Claims about the Seed Sampler -/

/-- Every field of the design point drawn from any generator state lies in
the Design Space Catalog, and the addressing modes are a nonempty
duplicate-free subset of the catalog's modes. -/
theorem draw_params_valid (g : MTState) :
    valid_params (draw_params g).1 ∧
    (draw_params g).1.instructions = MicroX86Params.INSTRUCTIONS := by
  have hk := pyrandint_range 1 MicroX86Params.ADDRESSING_MODES.length
    (pyrandint 1 MicroX86Params.ADDRESSING_MODES.length
      (pychoice MicroX86Params.NUM_REGS_OPTIONS g).2).2 (by decide)
  have hk' := pyrandint_range 1 MicroX86Params.ADDRESSING_MODES.length
    (pychoice MicroX86Params.NUM_REGS_OPTIONS g).2 (by decide)
  have hs := pysample_modes_props
    (pyrandint 1 MicroX86Params.ADDRESSING_MODES.length
      (pychoice MicroX86Params.NUM_REGS_OPTIONS g).2).1
    (pyrandint 1 MicroX86Params.ADDRESSING_MODES.length
      (pychoice MicroX86Params.NUM_REGS_OPTIONS g).2).2
    hk'.1 hk'.2
  refine ⟨⟨?_, ?_, ?_, ?_, ?_, ?_, ?_, ?_⟩, rfl⟩
  · exact pychoice_mem MicroX86Params.NUM_REGS_OPTIONS g (by decide)
  · exact pychoice_mem MicroX86Params.DECODER_TYPES _ (by decide)
  · exact pychoice_mem MicroX86Params.PIPELINE_DEPTHS _ (by decide)
  · exact pychoice_mem MicroX86Params.EXEC_UNITS _ (by decide)
  · exact pychoice_mem MicroX86Params.MEMORY_TYPES _ (by decide)
  · exact hs.1
  · exact hs.2.1
  · exact hs.2.2

/-- C1: for every seed string `s` and any prior state of the module-level
generator, running `seed_to_params(s)` twice in a row (the second call
seeing the generator state the first one left behind) yields design
points that agree on every field — `random.seed` reinitialises the
generator from the MD5 digest of the seed alone, so the draws cannot
depend on anything but `s`. -/
theorem C1_sampler_deterministic (s : String) (g0 : MTState) :
    (seed_to_paramsG s ((seed_to_paramsG s g0).2)).1.num_regs
        = (seed_to_paramsG s g0).1.num_regs ∧
    (seed_to_paramsG s ((seed_to_paramsG s g0).2)).1.addressing_modes
        = (seed_to_paramsG s g0).1.addressing_modes ∧
    (seed_to_paramsG s ((seed_to_paramsG s g0).2)).1.decoder_type
        = (seed_to_paramsG s g0).1.decoder_type ∧
    (seed_to_paramsG s ((seed_to_paramsG s g0).2)).1.pipeline_depth
        = (seed_to_paramsG s g0).1.pipeline_depth ∧
    (seed_to_paramsG s ((seed_to_paramsG s g0).2)).1.exec_units
        = (seed_to_paramsG s g0).1.exec_units ∧
    (seed_to_paramsG s ((seed_to_paramsG s g0).2)).1.memory_type
        = (seed_to_paramsG s g0).1.memory_type ∧
    (seed_to_paramsG s ((seed_to_paramsG s g0).2)).1.instructions
        = (seed_to_paramsG s g0).1.instructions ∧
    (seed_to_paramsG s ((seed_to_paramsG s g0).2)).1
        = (seed_to_paramsG s g0).1 ∧
    (seed_to_paramsG s g0).1 = seed_to_params s :=
  ⟨rfl, rfl, rfl, rfl, rfl, rfl, rfl, rfl, rfl⟩

/-- C2: for every seed string (the empty string included — the function is
total, so no input can raise), the sampled design point is valid:
`num_regs ∈ {4,6,8}`, `decoder_type ∈ {hardwired, microcoded}`,
`pipeline_depth ∈ {2,3,4}`, `exec_units ∈ {single_alu, separate_agu_alu}`,
`memory_type ∈ {simple, cached}`, and `addressing_modes` is a nonempty
duplicate-free subset of `{1,2,3}`. -/
theorem C2_sampler_valid (s : String) :
    (seed_to_params s).num_regs ∈ MicroX86Params.NUM_REGS_OPTIONS ∧
    (seed_to_params s).decoder_type ∈ MicroX86Params.DECODER_TYPES ∧
    (seed_to_params s).pipeline_depth ∈ MicroX86Params.PIPELINE_DEPTHS ∧
    (seed_to_params s).exec_units ∈ MicroX86Params.EXEC_UNITS ∧
    (seed_to_params s).memory_type ∈ MicroX86Params.MEMORY_TYPES ∧
    (seed_to_params s).addressing_modes ≠ [] ∧
    (seed_to_params s).addressing_modes.Nodup ∧
    (∀ m ∈ (seed_to_params s).addressing_modes,
      m ∈ MicroX86Params.ADDRESSING_MODES) ∧
    (seed_to_params s).instructions = MicroX86Params.INSTRUCTIONS := by
  have h := draw_params_valid (mtSeed (md5Int (utf8Bytes s)))
  obtain ⟨⟨h1, h2, h3, h4, h5, h6, h7, h8⟩, h9⟩ := h
  exact ⟨h1, h2, h3, h4, h5, h6, h7, h8, h9⟩

/-! ## Claims about the Module Composer -/

/-- A pattern occurring in the left part of a concatenation occurs in the
whole. -/
theorem occursIn_append_left (pat a b : String) (h : occursIn pat a) :
    occursIn pat (a ++ b) := by
  obtain ⟨s, t, hst⟩ := h
  exact ⟨s, t ++ b.data, by
    rw [String.data_append, ← hst]
    simp [List.append_assoc]⟩

/-- A pattern occurring in the right part of a concatenation occurs in the
whole. -/
theorem occursIn_append_right (pat a b : String) (h : occursIn pat b) :
    occursIn pat (a ++ b) := by
  obtain ⟨s, t, hst⟩ := h
  exact ⟨a.data ++ s, t, by
    rw [String.data_append, ← hst]
    simp [List.append_assoc]⟩

/-- The wrapper text instantiates a decoder under the name
`decoder_<decoder_type>`, whatever the field holds. -/
theorem top_content_decoder_inst (p : Params) :
    occursIn ("decoder_" ++ p.decoder_type ++ " dec (") (top_content p) :=
  occursIn_of_eq
    (topT1 ++ toString p.num_regs ++ topT2 ++ toString p.pipeline_depth
      ++ topT3)
    ("decoder_" ++ p.decoder_type ++ " dec (")
    (topT4 ++ "alu alu_inst (" ++ topT5
      ++ ("memory_" ++ p.memory_type ++ " mem_inst (") ++ topT6
      ++ toString p.pipeline_depth ++ topT7
      ++ String.intercalate ", " (MicroX86Params.REG_NAMES.take p.num_regs)
      ++ topT8)
    (top_content p)
    (by simp only [top_content, String.append_assoc])

/-- The wrapper text instantiates a memory interface under the name
`memory_<memory_type>`, whatever the field holds. -/
theorem top_content_memory_inst (p : Params) :
    occursIn ("memory_" ++ p.memory_type ++ " mem_inst (") (top_content p) :=
  occursIn_of_eq
    (topT1 ++ toString p.num_regs ++ topT2 ++ toString p.pipeline_depth
      ++ topT3 ++ ("decoder_" ++ p.decoder_type ++ " dec (") ++ topT4
      ++ "alu alu_inst (" ++ topT5)
    ("memory_" ++ p.memory_type ++ " mem_inst (")
    (topT6 ++ toString p.pipeline_depth ++ topT7
      ++ String.intercalate ", " (MicroX86Params.REG_NAMES.take p.num_regs)
      ++ topT8)
    (top_content p)
    (by simp only [top_content, String.append_assoc])

/-- The wrapper text instantiates the execution unit under the fixed name
`alu`, for every design point. -/
theorem top_content_alu_inst (p : Params) :
    occursIn "alu alu_inst (" (top_content p) :=
  occursIn_of_eq
    (topT1 ++ toString p.num_regs ++ topT2 ++ toString p.pipeline_depth
      ++ topT3 ++ ("decoder_" ++ p.decoder_type ++ " dec (") ++ topT4)
    "alu alu_inst ("
    (topT5 ++ ("memory_" ++ p.memory_type ++ " mem_inst (") ++ topT6
      ++ toString p.pipeline_depth ++ topT7
      ++ String.intercalate ", " (MicroX86Params.REG_NAMES.take p.num_regs)
      ++ topT8)
    (top_content p)
    (by simp only [top_content, String.append_assoc])

/-- The wrapper's module header, present for every design point. -/
theorem top_content_module_head (p : Params) :
    occursIn "module micro_x86_core #(" (top_content p) := by
  have h0 : occursIn "module micro_x86_core #(" topT1 := by decide
  have he : top_content p = topT1 ++
      (toString p.num_regs ++ topT2 ++ toString p.pipeline_depth ++ topT3
        ++ ("decoder_" ++ p.decoder_type ++ " dec (") ++ topT4
        ++ "alu alu_inst (" ++ topT5
        ++ ("memory_" ++ p.memory_type ++ " mem_inst (") ++ topT6
        ++ toString p.pipeline_depth ++ topT7
        ++ String.intercalate ", " (MicroX86Params.REG_NAMES.take p.num_regs)
        ++ topT8) := by
    simp only [top_content, String.append_assoc]
  rw [he]
  exact occursIn_append_left _ _ _ h0

/-- C3 counterexample: the composer does not reject an out-of-catalog
design point.  On `bad_point` (whose fields all lie outside the catalog)
`generate_top_level_verilog` renders a complete wrapper, splices the
invalid `decoder_type`/`memory_type` strings verbatim into module
instantiations, and the decoder generator silently coerces the unknown
decoder type to the microcoded template — no error of any kind. -/
theorem C3_counterexample :
    bad_point.num_regs ∉ MicroX86Params.NUM_REGS_OPTIONS ∧
    bad_point.decoder_type ∉ MicroX86Params.DECODER_TYPES ∧
    bad_point.memory_type ∉ MicroX86Params.MEMORY_TYPES ∧
    bad_point.pipeline_depth ∉ MicroX86Params.PIPELINE_DEPTHS ∧
    (generate_top_level_verilog bad_point ".").2 = top_content bad_point ∧
    occursIn "module micro_x86_core #(" (top_content bad_point) ∧
    occursIn "decoder_bogus dec (" (top_content bad_point) ∧
    occursIn "memory_strange mem_inst (" (top_content bad_point) ∧
    generate_decoder_verilog bad_point = decoder_microcoded_text := by
  refine ⟨by decide, by decide, by decide, by decide, rfl,
    top_content_module_head bad_point, ?_, ?_, by decide⟩
  · exact top_content_decoder_inst bad_point
  · exact top_content_memory_inst bad_point

/-- C3 amended: the composer validates nothing.  For every design point,
valid or not, it returns the rendered wrapper (under the content-hash
filename), splicing the point's `decoder_type` and `memory_type` strings
verbatim into the instantiations. -/
theorem C3_amended_renders_all (p : Params) (dir : String) :
    (generate_top_level_verilog p dir).2 = top_content p ∧
    (generate_top_level_verilog p dir).1
      = dir ++ "/" ++ ("micro_x86_core_" ++ artifact_id p ++ ".v") ∧
    occursIn "module micro_x86_core #(" (top_content p) ∧
    occursIn ("decoder_" ++ p.decoder_type ++ " dec (") (top_content p) ∧
    occursIn ("memory_" ++ p.memory_type ++ " mem_inst (") (top_content p) :=
  ⟨rfl, rfl, top_content_module_head p, top_content_decoder_inst p,
    top_content_memory_inst p⟩

/-- C5: for a valid design point the wrapper instantiates exactly the
decoder and memory variants selected by `decoder_type`/`memory_type`, and
these names coincide with the module names the decoder and memory
generators declare for the same point. -/
theorem C5_composer_consistent (p : Params) (hv : valid_params p) :
    occursIn ("decoder_" ++ p.decoder_type ++ " dec (") (top_content p) ∧
    occursIn ("module decoder_" ++ p.decoder_type ++ " (")
      (generate_decoder_verilog p) ∧
    occursIn ("memory_" ++ p.memory_type ++ " mem_inst (") (top_content p) ∧
    occursIn ("module memory_" ++ p.memory_type ++ " (")
      (generate_memory_interface_verilog p) := by
  obtain ⟨-, hdec, -, -, hmem, -, -, -⟩ := hv
  have hd : p.decoder_type = "hardwired" ∨ p.decoder_type = "microcoded" := by
    simpa [MicroX86Params.DECODER_TYPES] using hdec
  have hm : p.memory_type = "simple" ∨ p.memory_type = "cached" := by
    simpa [MicroX86Params.MEMORY_TYPES] using hmem
  refine ⟨top_content_decoder_inst p, ?_, top_content_memory_inst p, ?_⟩
  · rcases hd with h | h <;> rw [h] <;>
      simp only [generate_decoder_verilog, h] <;> decide
  · rcases hm with h | h <;> rw [h] <;>
      simp only [generate_memory_interface_verilog, h] <;> decide

/-- C5 witness at a concrete valid point. -/
theorem C5_witness :
    valid_params ⟨4, [1, 3], "hardwired", 2, "single_alu", "cached",
      MicroX86Params.INSTRUCTIONS⟩ ∧
    occursIn "decoder_hardwired dec ("
      (top_content ⟨4, [1, 3], "hardwired", 2, "single_alu", "cached",
        MicroX86Params.INSTRUCTIONS⟩) ∧
    occursIn "module decoder_hardwired ("
      (generate_decoder_verilog ⟨4, [1, 3], "hardwired", 2, "single_alu",
        "cached", MicroX86Params.INSTRUCTIONS⟩) ∧
    occursIn "memory_cached mem_inst ("
      (top_content ⟨4, [1, 3], "hardwired", 2, "single_alu", "cached",
        MicroX86Params.INSTRUCTIONS⟩) ∧
    occursIn "module memory_cached ("
      (generate_memory_interface_verilog ⟨4, [1, 3], "hardwired", 2,
        "single_alu", "cached", MicroX86Params.INSTRUCTIONS⟩) := by
  have hv : valid_params ⟨4, [1, 3], "hardwired", 2, "single_alu", "cached",
      MicroX86Params.INSTRUCTIONS⟩ := by
    refine ⟨by decide, by decide, by decide, by decide, by decide,
      by decide, by decide, by decide⟩
  have h := C5_composer_consistent _ hv
  exact ⟨hv, h.1, h.2.1, h.2.2.1, h.2.2.2⟩

/-- C6: the artifact identifier is computed from the params dictionary
alone (it is `md5(str(params))[:8]`, not a hash of the seed string or of
the rendered text), so re-composing the same design point — in particular
the points derived from two seeds whose design points coincide — yields
the identical filename and artifact. -/
theorem C6_artifact_id_from_point (s1 s2 dir : String)
    (hp : seed_to_params s1 = seed_to_params s2) :
    artifact_id (seed_to_params s1) = artifact_id (seed_to_params s2) ∧
    generate_top_level_verilog (seed_to_params s1) dir
      = generate_top_level_verilog (seed_to_params s2) dir ∧
    artifact_id (seed_to_params s1)
      = (md5hex (utf8Bytes (pyStrParams (seed_to_params s1)))).take 8 := by
  rw [hp]
  exact ⟨rfl, rfl, rfl⟩

/-- C6 witness: the hypothesis holds for two calls on one seed. -/
theorem C6_witness :
    seed_to_params "seed_0" = seed_to_params "seed_0" ∧
    artifact_id (seed_to_params "seed_0")
      = artifact_id (seed_to_params "seed_0") :=
  ⟨rfl, (C6_artifact_id_from_point "seed_0" "seed_0" "." rfl).1⟩

/-- C9: the wrapper always instantiates the execution unit under the
fixed name `alu`, but for `exec_units = separate_agu_alu` the ALU
generator emits a module declared as `agu_alu_separate` and declares no
module named `alu` — the instantiated name and the generated module name
disagree. -/
theorem C9_alu_name_mismatch (p : Params) (dir : String) :
    occursIn "alu alu_inst (" (top_content p) ∧
    (generate_top_level_verilog p dir).2 = top_content p ∧
    (p.exec_units = "separate_agu_alu" →
      generate_alu_verilog p = alu_separate_text ∧
      occursIn "module agu_alu_separate (" (generate_alu_verilog p) ∧
      ¬ occursIn "module alu (" (generate_alu_verilog p)) := by
  refine ⟨top_content_alu_inst p, rfl, fun hsep => ?_⟩
  have he : generate_alu_verilog p = alu_separate_text := by
    simp [generate_alu_verilog, hsep]
  refine ⟨he, ?_, ?_⟩
  · rw [he]
    decide
  · rw [he]
    decide

/-- C9 witness at a concrete split-execution point. -/
theorem C9_witness :
    occursIn "alu alu_inst ("
      (top_content ⟨4, [1], "hardwired", 2, "separate_agu_alu", "simple",
        MicroX86Params.INSTRUCTIONS⟩) ∧
    generate_alu_verilog ⟨4, [1], "hardwired", 2, "separate_agu_alu",
        "simple", MicroX86Params.INSTRUCTIONS⟩ = alu_separate_text ∧
    occursIn "module agu_alu_separate ("
      (generate_alu_verilog ⟨4, [1], "hardwired", 2, "separate_agu_alu",
        "simple", MicroX86Params.INSTRUCTIONS⟩) ∧
    ¬ occursIn "module alu ("
      (generate_alu_verilog ⟨4, [1], "hardwired", 2, "separate_agu_alu",
        "simple", MicroX86Params.INSTRUCTIONS⟩) := by
  have h := C9_alu_name_mismatch ⟨4, [1], "hardwired", 2,
    "separate_agu_alu", "simple", MicroX86Params.INSTRUCTIONS⟩ "."
  exact ⟨h.1, h.2.2 rfl⟩

/-- C10: the artifact identifier is the first 8 hex digits of the MD5 of
`str(params)`, which renders `addressing_modes` in its drawn list order:
two points equal in every field up to reordering of the addressing-mode
list receive different identifiers (here `42c9cac3` versus `3990bca4`). -/
theorem C10_id_depends_on_mode_order :
    artifact_id point_modes_12
      = (md5hex (utf8Bytes (pyStrParams point_modes_12))).take 8 ∧
    point_modes_12.num_regs = point_modes_21.num_regs ∧
    point_modes_12.decoder_type = point_modes_21.decoder_type ∧
    point_modes_12.pipeline_depth = point_modes_21.pipeline_depth ∧
    point_modes_12.exec_units = point_modes_21.exec_units ∧
    point_modes_12.memory_type = point_modes_21.memory_type ∧
    point_modes_12.instructions = point_modes_21.instructions ∧
    List.Perm point_modes_12.addressing_modes
      point_modes_21.addressing_modes ∧
    point_modes_12.addressing_modes ≠ point_modes_21.addressing_modes ∧
    artifact_id point_modes_12 = "42c9cac3" ∧
    artifact_id point_modes_21 = "3990bca4" ∧
    artifact_id point_modes_12 ≠ artifact_id point_modes_21 := by
  refine ⟨rfl, rfl, rfl, rfl, rfl, rfl, rfl, by decide, by decide,
    by decide, by decide, by decide⟩

/-! ## Claims about the Similarity Ranker -/

/-- C4 counterexample: no process hash function can make the implemented
per-field mismatch cost a fixed positive constant.  Over the `num_regs`
values the sampler produces (`{4,6,8}`) and the values the Lexicon can
require (`{4,8}`), the cost `|h(str(gv)) % 100 - h(str(tv)) % 100|` would
have to make three points of ℤ pairwise equidistant at a positive
distance, which is impossible — so the claimed contract fails for every
possible `h`, including the process's actual one. -/
theorem C4_counterexample :
    ¬ ∃ (h : String → Int) (c : Nat), 0 < c ∧
      ∀ gv ∈ MicroX86Params.NUM_REGS_OPTIONS, ∀ tv ∈ ([4, 8] : List Nat),
        gv ≠ tv → per_field_cost h (.int gv) (.int tv) = c := by
  rintro ⟨h, c, hc, H⟩
  have h64 := H 6 (by decide) 4 (by decide) (by decide)
  have h84 := H 8 (by decide) 4 (by decide) (by decide)
  have h68 := H 6 (by decide) 8 (by decide) (by decide)
  simp only [per_field_cost] at h64 h84 h68
  omega

/-- C4 amended: the distance is the sum, over the target's constrained
fields that are also keys of the candidate's params dict, of
`|hash(str(gen value)) % 100 - hash(str(target value)) % 100|`.  That
cost is 0 on an exact field match, but on a mismatch it depends on the
hashed values instead of being a fixed positive constant (see the
counterexample); and the Lexicon's `decoder`/`memory` constraint keys are
not params keys at all, so they contribute nothing, matching or not. -/
theorem C4_amended_cost_shape (h : String → Int) :
    (∀ target p, params_distance h target p
      = (target.map (fun kv =>
          match genLookup p kv.1 with
          | some gv => per_field_cost h gv kv.2
          | none => 0)).sum) ∧
    (∀ gv tv : PyVal, per_field_cost h gv tv
      = (h (pyStr gv) % 100 - h (pyStr tv) % 100).natAbs) ∧
    (∀ v : PyVal, per_field_cost h v v = 0) ∧
    (∀ tv p, params_distance h [("decoder", tv)] p = 0) ∧
    (∀ tv p, params_distance h [("memory", tv)] p = 0) := by
  refine ⟨fun target p => rfl, fun gv tv => rfl, fun v => ?_, ?_, ?_⟩
  · simp [per_field_cost]
  · intro tv p
    simp +decide [params_distance, genLookup]
  · intro tv p
    simp +decide [params_distance, genLookup]

/-- Inserting behind the equals keeps a pair list a permutation. -/
theorem insertByDist_perm (x : String × Nat) (l : List (String × Nat)) :
    List.Perm (insertByDist x l) (x :: l) := by
  induction l with
  | nil => simp [insertByDist]
  | cons y ys ih =>
      simp only [insertByDist]
      split
      · exact (ih.cons y).trans (List.Perm.swap x y ys)
      · exact List.Perm.refl _

/-- Insertion preserves ascending order of the distances. -/
theorem insertByDist_sorted (x : String × Nat) (l : List (String × Nat))
    (hl : List.Pairwise (fun a b : String × Nat => a.2 ≤ b.2) l) :
    List.Pairwise (fun a b : String × Nat => a.2 ≤ b.2)
      (insertByDist x l) := by
  induction l with
  | nil => simp [insertByDist]
  | cons y ys ih =>
      rw [List.pairwise_cons] at hl
      obtain ⟨hy, hys⟩ := hl
      simp only [insertByDist]
      split
      · next hle =>
          rw [List.pairwise_cons]
          refine ⟨fun z hz => ?_, ih hys⟩
          rcases List.mem_cons.mp ((insertByDist_perm x ys).mem_iff.mp hz)
            with rfl | hz'
          · exact hle
          · exact hy z hz'
      · next hgt =>
          rw [List.pairwise_cons]
          refine ⟨fun z hz => ?_, List.pairwise_cons.mpr ⟨hy, hys⟩⟩
          rcases List.mem_cons.mp hz with rfl | hz'
          · omega
          · have := hy z hz'
            omega

/-- Inserting into a sorted list puts the new pair behind every earlier
pair of its own distance: the filter at each distance gains the new pair
at the end, and only at its own distance. -/
theorem insertByDist_filter (x : String × Nat) (l : List (String × Nat))
    (d : Nat)
    (hl : List.Pairwise (fun a b : String × Nat => a.2 ≤ b.2) l) :
    (insertByDist x l).filter (fun y => y.2 == d)
      = if x.2 = d then l.filter (fun y => y.2 == d) ++ [x]
        else l.filter (fun y => y.2 == d) := by
  induction l with
  | nil => by_cases hxd : x.2 = d <;> simp [insertByDist, hxd]
  | cons y ys ih =>
      rw [List.pairwise_cons] at hl
      obtain ⟨hy, hys⟩ := hl
      simp only [insertByDist]
      split
      · next hle =>
          by_cases hxd : x.2 = d <;> by_cases hyd : y.2 = d <;>
            simp [List.filter_cons, hxd, hyd, ih hys]
      · next hgt =>
          have hxy : x.2 < y.2 := by omega
          by_cases hxd : x.2 = d
          · have hnil : (y :: ys).filter (fun z => z.2 == d) = [] := by
              apply List.filter_eq_nil_iff.mpr
              intro z hz
              rcases List.mem_cons.mp hz with rfl | hz'
              · simp only [beq_iff_eq]
                omega
              · have := hy z hz'
                simp only [beq_iff_eq]
                omega
            simp [List.filter_cons, hxd, hnil]
          · simp [List.filter_cons, hxd]

/-- The insertion fold permutes the accumulated and remaining pairs. -/
theorem sort_foldl_perm : ∀ (l acc : List (String × Nat)),
    List.Perm (l.foldl (fun a x => insertByDist x a) acc) (acc ++ l) := by
  intro l
  induction l with
  | nil => intro acc; simp
  | cons x xs ih =>
      intro acc
      simp only [List.foldl_cons]
      refine (ih (insertByDist x acc)).trans ?_
      refine (((insertByDist_perm x acc).append_right xs).trans ?_)
      exact List.perm_middle.symm

/-- The insertion fold keeps the accumulator sorted. -/
theorem sort_foldl_sorted : ∀ (l acc : List (String × Nat)),
    List.Pairwise (fun a b : String × Nat => a.2 ≤ b.2) acc →
    List.Pairwise (fun a b : String × Nat => a.2 ≤ b.2)
      (l.foldl (fun a x => insertByDist x a) acc) := by
  intro l
  induction l with
  | nil => intro acc hacc; simpa using hacc
  | cons x xs ih =>
      intro acc hacc
      simp only [List.foldl_cons]
      exact ih _ (insertByDist_sorted x acc hacc)

/-- Stability of the fold: at every distance value, the fold preserves
the input order of the pairs with that distance. -/
theorem sort_foldl_filter : ∀ (l acc : List (String × Nat)) (d : Nat),
    List.Pairwise (fun a b : String × Nat => a.2 ≤ b.2) acc →
    (l.foldl (fun a x => insertByDist x a) acc).filter (fun y => y.2 == d)
      = acc.filter (fun y => y.2 == d) ++ l.filter (fun y => y.2 == d) := by
  intro l
  induction l with
  | nil => intro acc d hacc; simp
  | cons x xs ih =>
      intro acc d hacc
      simp only [List.foldl_cons]
      rw [ih _ d (insertByDist_sorted x acc hacc),
        insertByDist_filter x acc d hacc]
      by_cases hxd : x.2 = d <;> simp [List.filter_cons, hxd]

/-- The stable sort is a permutation of its input. -/
theorem stableSortByDist_perm (l : List (String × Nat)) :
    List.Perm (stableSortByDist l) l := by
  simpa using sort_foldl_perm l []

/-- The stable sort is ascending in the distances. -/
theorem stableSortByDist_sorted (l : List (String × Nat)) :
    List.Pairwise (fun a b : String × Nat => a.2 ≤ b.2)
      (stableSortByDist l) :=
  sort_foldl_sorted l [] (by simp)

/-- The stable sort preserves the input order within each distance
class — the standard characterisation of a stable sort. -/
theorem stableSortByDist_filter (l : List (String × Nat)) (d : Nat) :
    (stableSortByDist l).filter (fun y => y.2 == d)
      = l.filter (fun y => y.2 == d) := by
  simpa using sort_foldl_filter l [] d (by simp)

/-- Sorting a list of pairs that all carry one distance value is the
identity. -/
theorem stableSortByDist_const (l : List (String × Nat)) (c : Nat)
    (hall : ∀ x ∈ l, x.2 = c) : stableSortByDist l = l := by
  have h1 : (stableSortByDist l).filter (fun y => y.2 == c)
      = stableSortByDist l :=
    List.filter_eq_self.mpr (fun x hx => by
      have := hall x ((stableSortByDist_perm l).mem_iff.mp hx)
      simp [this])
  have h2 : l.filter (fun y => y.2 == c) = l :=
    List.filter_eq_self.mpr (fun x hx => by simp [hall x hx])
  rw [← h1, stableSortByDist_filter, h2]

/-- C7: for every process hash, candidate list, query and limit, the
search output is exactly the stable ascending-by-distance sort of the
`(seed, distance)` pairs, truncated to at most `limit` entries (default
5): the sort is a permutation of the input pairs, its distances ascend,
and within each distance class the candidates keep their input order. -/
theorem C7_rank_sorted_stable_truncated (h : String → Int)
    (seeds query_words : List String) (limit : Nat) :
    similarity_search h seeds query_words limit
      = (stableSortByDist (rank_pairs h seeds query_words)).take limit ∧
    List.Perm (stableSortByDist (rank_pairs h seeds query_words))
      (rank_pairs h seeds query_words) ∧
    List.Pairwise (fun a b : String × Nat => a.2 ≤ b.2)
      (stableSortByDist (rank_pairs h seeds query_words)) ∧
    (∀ d : Nat,
      (stableSortByDist (rank_pairs h seeds query_words)).filter
          (fun y => y.2 == d)
        = (rank_pairs h seeds query_words).filter (fun y => y.2 == d)) ∧
    (similarity_search h seeds query_words limit).length ≤ limit ∧
    similarity_search_default h seeds query_words
      = similarity_search h seeds query_words 5 := by
  refine ⟨rfl, stableSortByDist_perm _, stableSortByDist_sorted _,
    fun d => stableSortByDist_filter _ d, ?_, rfl⟩
  show ((stableSortByDist (rank_pairs h seeds query_words)).take
    limit).length ≤ limit
  simp [List.length_take]

/-- An all-miss query resolves to the empty constraint dict. -/
theorem target_of_words_none (query_words : List String)
    (hq : ∀ w ∈ query_words,
      List.lookup w MicroX86Params.LEXICON = none) :
    target_of_words query_words = [] := by
  have haux : ∀ (ws : List String) (t : List (String × PyVal)),
      (∀ w ∈ ws, List.lookup w MicroX86Params.LEXICON = none) →
      ws.foldl (fun t w =>
        match List.lookup w MicroX86Params.LEXICON with
        | none => t
        | some kvs => kvs.foldl (fun t kv => dictSet t kv.1 kv.2) t) t
        = t := by
    intro ws
    induction ws with
    | nil => intro t _; rfl
    | cons w ws ih =>
        intro t hqs
        simp only [List.foldl_cons, hqs w (List.mem_cons_self w ws)]
        exact ih t (fun w' hw' => hqs w' (List.mem_cons_of_mem _ hw'))
  exact haux query_words [] hq

/-- C8: with an empty query word list — or one whose words are all
missing from the Lexicon and hence ignored — every candidate is at
distance 0 and the search returns the first `limit` candidates in input
order, paired with distance 0. -/
theorem C8_empty_query_neutral (h : String → Int)
    (seeds query_words : List String) (limit : Nat)
    (hq : ∀ w ∈ query_words,
      List.lookup w MicroX86Params.LEXICON = none) :
    similarity_search h seeds query_words limit
      = (seeds.take limit).map (fun s => (s, 0)) := by
  have ht := target_of_words_none query_words hq
  have hpairs : rank_pairs h seeds query_words
      = seeds.map (fun s => (s, 0)) := by
    simp [rank_pairs, ht, params_distance]
  have hsort : stableSortByDist (seeds.map (fun s => (s, 0)))
      = seeds.map (fun s => (s, 0)) :=
    stableSortByDist_const _ 0 (by
      intro x hx
      obtain ⟨s, -, rfl⟩ := List.mem_map.mp hx
      rfl)
  calc similarity_search h seeds query_words limit
      = (stableSortByDist (rank_pairs h seeds query_words)).take limit :=
        rfl
    _ = (seeds.map (fun s => (s, 0))).take limit := by rw [hpairs, hsort]
    _ = (seeds.take limit).map (fun s => (s, 0)) :=
        (List.map_take _ _ _).symm

/-- C8 witness: a three-candidate search with an unknown query word and
limit 2. -/
theorem C8_witness :
    (∀ w ∈ (["quantum"] : List String),
      List.lookup w MicroX86Params.LEXICON = none) ∧
    similarity_search (fun _ => 0) ["s1", "s2", "s3"] ["quantum"] 2
      = ((["s1", "s2", "s3"] : List String).take 2).map
          (fun s => (s, 0)) :=
  ⟨by decide, C8_empty_query_neutral (fun _ => 0) ["s1", "s2", "s3"]
    ["quantum"] 2 (by decide)⟩
